import Mathlib

/-!
Verification of the frequency/time Gantt viewer core
(`src/interface/src/{main.rs, tools/{app.rs, utils.rs, background.rs, task.rs}}`).

The Rust `f64` arithmetic is embedded as real numbers (`ℝ`): all values the
program manipulates (frequencies, times, log10/powf transforms) are modelled
exactly over `ℝ`; `f64::EPSILON` is the exact rational `2⁻⁵²`.  Discrete state
(task lists, step indices, booleans, channels) is modelled with the matching
Lean data types.  Definitions keep the source's names where Lean allows it.
-/

namespace Gantt

/-! ## Constants (tools/utils.rs) -/

/-- `MIN_FREQ`: minimal allowed frequency in MHz (utils.rs). -/
def MIN_FREQ : ℝ := 20.0

/-- `MAX_FREQ`: maximal allowed frequency in MHz (utils.rs). -/
def MAX_FREQ : ℝ := 6000.0

/-- `MAX_TIME`: maximal time in ms (utils.rs). -/
def MAX_TIME : ℝ := 1000.0

/-- `get_bounds(log)` (utils.rs): X-axis bounds, log10-transformed when `log`. -/
noncomputable def get_bounds (log : Bool) : ℝ × ℝ :=
  if log then (Real.logb 10 MIN_FREQ, Real.logb 10 MAX_FREQ)
  else (MIN_FREQ, MAX_FREQ)

/-! ## Scale transform

The source applies `f64::log10` to frequencies when the log scale is active
(`Task::rect`, the zone rendering in `app.rs`) and `10f64.powf` to recover a
frequency from a plot-space x coordinate (the hover code in `app.rs`).  We
name the two directions `toPlotX` / `fromPlotX`, keyed by the `log_scale`
boolean exactly as the source is. -/

/-- Frequency to plot-space x: `f.log10()` when `log`, identity otherwise. -/
noncomputable def toPlotX (log : Bool) (f : ℝ) : ℝ :=
  if log then Real.logb 10 f else f

/-- Plot-space x back to a frequency: `10f64.powf(x)` when `log` (the
`hovered_freq` computation in `app.rs`), identity otherwise. -/
noncomputable def fromPlotX (log : Bool) (x : ℝ) : ℝ :=
  if log then (10 : ℝ) ^ x else x

/-! ## Amplifiers and tasks (tools/task.rs) -/

/-- `Amplifier` (task.rs): the five-band catalogue. Display colors are
rendering-only and not modelled. -/
inductive Amplifier where
  | A20_500
  | A500_1000
  | A960_1215
  | A1000_2500
  | A2400_6000
  deriving DecidableEq, Repr

/-- `Task` (task.rs): name, frequency range (MHz), time range (ms), amplifier. -/
structure Task where
  name : String
  freq_start : ℝ
  freq_end : ℝ
  time_start : ℝ
  time_end : ℝ
  amplifier : Amplifier

/-- `Task::rect(log)` (task.rs): the 4-vertex axis-aligned rectangle of the
task in plot space, x components log10-transformed when `log`. -/
noncomputable def Task.rect (t : Task) (log : Bool) : List (ℝ × ℝ) :=
  [(toPlotX log t.freq_start, t.time_start),
   (toPlotX log t.freq_end, t.time_start),
   (toPlotX log t.freq_end, t.time_end),
   (toPlotX log t.freq_start, t.time_end)]

/-- The task pushed by recipe step 0 (`MyApp::update_tasks`, app.rs). -/
def initTask : Task :=
  ⟨"Init capteurs", 100, 300, 0, 300, Amplifier.A20_500⟩

/-- The task pushed by recipe step 1 (`MyApp::update_tasks`, app.rs). -/
def transmissionTask : Task :=
  ⟨"Transmission", 1000, 2500, 300, 600, Amplifier.A1000_2500⟩

/-- The task pushed by recipe step 3 (`MyApp::update_tasks`, app.rs). -/
def sleepTask : Task :=
  ⟨"Sleep mode", 5000, 5500, 0, 1000, Amplifier.A2400_6000⟩

/-- `MyApp::update_tasks(step)` (app.rs): the recipe mutation on the task
list.  `Vec::push` appends at the end; `Vec::pop` (step 2) removes the last
element, its `Option` result being discarded; `Vec::clear` empties the list;
any other step leaves the list unchanged (the `_ => {}` arm). -/
def update_tasks (step : Nat) (tasks : List Task) : List Task :=
  match step with
  | 0 => tasks ++ [initTask]
  | 1 => tasks ++ [transmissionTask]
  | 2 => tasks.dropLast
  | 3 => tasks ++ [sleepTask]
  | 4 => []
  | _ => tasks

/-! ## Ray-casting containment (tools/background.rs) -/

/-- `f64::EPSILON` = 2⁻⁵², the constant the source adds to the ray-cast
denominator. -/
noncomputable def eps : ℝ := (2 : ℝ) ^ (-52 : ℤ)

/-- The toggle condition of one loop iteration of `BackgroundZone::contains`
(background.rs): `(yi > y) != (yj > y) && x < (xj - xi) * (y - yi) / (yj - yi
+ f64::EPSILON) + xi`, with boolean inequality rendered as a negated iff. -/
noncomputable def edgeFlips (x y xi yi xj yj : ℝ) : Prop :=
  ¬((yi > y) ↔ (yj > y)) ∧ x < (xj - xi) * (y - yi) / (yj - yi + eps) + xi

open Classical in
/-- The `for i in 0..n` loop of `BackgroundZone::contains`, with the edge
sequence `(points[i], points[j])` already materialised: `j` starts at `n-1`
and is set to `i` at the end of each iteration, so the pairs visited are
`(p₀, pₙ₋₁), (p₁, p₀), …, (pₙ₋₁, pₙ₋₂)`; `inside` is toggled whenever the
edge condition holds. -/
noncomputable def rayFold (x y : ℝ) : List ((ℝ × ℝ) × (ℝ × ℝ)) → Bool → Bool
  | [], inside => inside
  | (p, q) :: rest, inside =>
      rayFold x y rest (if edgeFlips x y p.1 p.2 q.1 q.2 then !inside else inside)

/-- `BackgroundZone::contains(x, y)` (background.rs).  For an empty vertex
list the Rust `let mut j = n - 1;` underflows on `usize` and the call panics
(debug overflow checking), modelled as `none`.  Otherwise the edge list
`points[i]` paired with `points[j]` (`j = n-1, 0, 1, …, n-2`) is exactly
`points` zipped with `last :: dropLast`. -/
noncomputable def zoneContains (points : List (ℝ × ℝ)) (x y : ℝ) : Option Bool :=
  match points with
  | [] => none
  | _ :: _ =>
      some (rayFold x y (points.zip (points.getLastD (0, 0) :: points.dropLast)) false)

/-! ## Background zones (tools/background.rs) -/

/-- `BackgroundZoneKind` (background.rs). -/
inductive BackgroundZoneKind where
  | RxZone
  | Amplifier (label : String)

/-- `BackgroundZone` (background.rs).  Stroke, fill and the label anchor are
rendering-only style and not modelled; `kind` and `area` are what the
hit test and the tooltips consume. -/
structure BackgroundZone where
  kind : BackgroundZoneKind
  area : List (ℝ × ℝ)

/-- `BackgroundZone::name()` (background.rs). -/
def zoneName (z : BackgroundZone) : String :=
  match z.kind with
  | BackgroundZoneKind.RxZone => "Zone de réception"
  | BackgroundZoneKind.Amplifier label => label

/-- The receiver zone of `get_background_zones` (background.rs). -/
def rxZone : BackgroundZone :=
  ⟨BackgroundZoneKind.RxZone,
   [(MIN_FREQ, 0), (MAX_FREQ, 0), (MAX_FREQ, 100), (MIN_FREQ, 100)]⟩

/-- One amplifier zone of `get_background_zones` (background.rs): rectangle
from `f_start` to `f_end`, height `1100`, raised to `1125` for the
960–1215 MHz band. -/
def ampZone (label : String) (f_start f_end : ℝ) : BackgroundZone :=
  ⟨BackgroundZoneKind.Amplifier label,
   [(f_start, 0), (f_end, 0),
    (f_end, if label = "Amplifier 960-1215MHz" then 1125 else 1100),
    (f_start, if label = "Amplifier 960-1215MHz" then 1125 else 1100)]⟩

/-- `get_background_zones()` (background.rs): the receiver zone followed by
the five amplifier zones, in source order.  The areas are in domain units
(MHz / ms); no scale transform is applied here. -/
def get_background_zones : List BackgroundZone :=
  [rxZone,
   ampZone "Amplifier 20-500MHz" 20 500,
   ampZone "Amplifier 500-1000MHz" 500 1000,
   ampZone "Amplifier 960-1215MHz" 960 1215,
   ampZone "Amplifier 1000-2500MHz" 1000 2500,
   ampZone "Amplifier 2400-6000MHz" 2400 6000]

/-- The scale-mode transform the render pass applies to a zone polygon in
`app.rs` (`zone.area.iter().map(|[x, y]| [x.log10(), *y])` when the log scale
is active, the area unchanged otherwise). -/
noncomputable def scaledArea (log : Bool) (area : List (ℝ × ℝ)) : List (ℝ × ℝ) :=
  if log then area.map (fun p => (Real.logb 10 p.1, p.2)) else area

/-! ## Hover resolution (the tooltip block of `update`, app.rs) -/

open Classical in
/-- The per-task hover condition of the tooltip loop in `app.rs`:
`hovered_freq >= task.freq_start && hovered_freq <= task.freq_end &&
data_pos.y >= task.time_start && data_pos.y <= task.time_end`. -/
noncomputable def taskHit (t : Task) (f y : ℝ) : Bool :=
  decide (t.freq_start ≤ f ∧ f ≤ t.freq_end ∧ t.time_start ≤ y ∧ y ≤ t.time_end)

/-- The `for task in &self.tasks { … break; }` scan: the first task in stored
order whose rectangle contains the query, if any. -/
noncomputable def firstMatch (tasks : List Task) (f y : ℝ) : Option Task :=
  tasks.find? (fun t => taskHit t f y)

/-- What the tooltip block of `update` (app.rs) displays for one received
pointer position: at most one task tooltip, a list of zone names (shown only
when non-empty), and the raw-coordinate readout (`"{:.1} MHz\n{:.1} ms"` of
`data_pos`) when present. -/
structure HoverOutput where
  hoveredTask : Option Task
  zoneNames : List String
  coordLabel : Option (ℝ × ℝ)

open Classical in
/-- The tooltip block of `update` (app.rs) for pointer position `(px, py)`:
`hovered_freq` is `10^px` when the log scale is active, else `px`; the first
matching task wins and suppresses everything else (`task_hovered = true`);
otherwise the zones are filtered by `z.contains(hovered_freq, data_pos.y)` on
their stored domain-unit areas, and the raw `(data_pos.x, data_pos.y)` pair
is shown as the coordinate readout. -/
noncomputable def resolveHover (log : Bool) (tasks : List Task) (px py : ℝ) :
    HoverOutput :=
  let hovered_freq := fromPlotX log px
  match firstMatch tasks hovered_freq py with
  | some t => ⟨some t, [], none⟩
  | none =>
      ⟨none,
       (get_background_zones.filter
          (fun z => (zoneContains z.area hovered_freq py).getD false)).map zoneName,
       some (px, py)⟩

open Classical in
/-- Modelled from the spec's words, for comparison with the code: the zone
names whose containment test, evaluated on the zone polygon *built in the
current scale mode*, holds at `(freq, py)` with `freq = fromPlotX px`. -/
noncomputable def claimedZoneNames (log : Bool) (px py : ℝ) : List String :=
  (get_background_zones.filter
     (fun z => (zoneContains (scaledArea log z.area) (fromPlotX log px) py).getD
       false)).map zoneName

/-! ## Viewport state machine (`MyApp`, app.rs) -/

/-- The `MyApp` fields the viewport/ingestion logic touches.  The channel
endpoints live in `SystemState` below; rendering-only fields are omitted. -/
structure AppState where
  tasks : List Task
  plot_bounds_x : Option (ℝ × ℝ)
  last_bounds_x : Option (ℝ × ℝ)
  step : Nat
  old_log_scale : Bool
  log_scale : Bool
  zoom_band : Option Nat
  force_bounds_x : Option (ℝ × ℝ)

/-- The field initialisation of `MyApp::new()` (app.rs). -/
noncomputable def MyApp_new : AppState :=
  ⟨[], some (get_bounds false), some (0, 1), 0, false, false, none,
   some (get_bounds false)⟩

/-- `MyApp::bands()` (app.rs): the five amplifier bands with their frequency
ranges, in source order. -/
def bands : List (Amplifier × ℝ × ℝ) :=
  [(Amplifier.A20_500, 20, 500),
   (Amplifier.A500_1000, 500, 1000),
   (Amplifier.A960_1215, 960, 1215),
   (Amplifier.A1000_2500, 1000, 2500),
   (Amplifier.A2400_6000, 2400, 6000)]

/-- The scale-change block at the top of `update` (app.rs): when `log_scale`
differs from `old_log_scale`, record the new mode, clear the zoom band and
force the full-range bounds of the new mode; otherwise do nothing. -/
noncomputable def scaleSync (s : AppState) : AppState :=
  if s.log_scale ≠ s.old_log_scale then
    { s with old_log_scale := s.log_scale,
             zoom_band := none,
             force_bounds_x := some (get_bounds s.log_scale) }
  else s

/-- The side-panel checkbox flipping `self.log_scale` (app.rs); the
transition itself is applied by `scaleSync` on the next `update` pass. -/
def toggleScale (s : AppState) : AppState :=
  { s with log_scale := !s.log_scale }

/-- Clicking band `i` in the side panel (app.rs): set `zoom_band` and force
the band's bounds under the current scale. -/
noncomputable def selectBand (s : AppState) (i : Nat) : AppState :=
  match bands[i]? with
  | some (_, lo, hi) =>
      { s with zoom_band := some i,
               force_bounds_x :=
                 some (if s.log_scale then (Real.logb 10 lo, Real.logb 10 hi)
                       else (lo, hi)) }
  | none => s

/-- Clicking "Tout" in the side panel (app.rs). -/
noncomputable def selectShowAll (s : AppState) : AppState :=
  { s with zoom_band := none, force_bounds_x := some (get_bounds s.log_scale) }

/-- The effect of `self.force_bounds_x.take()` in the render pass (app.rs):
the pending forced bounds are removed from the state. -/
def consumeForced (s : AppState) : AppState :=
  { s with force_bounds_x := none }

open Classical in
/-- The render pass of one `update` (app.rs): `force_bounds_x.take()` is
applied to the plot as `default_x_bounds` (returned as the second component)
and cleared; then, with `reported` the bounds the plot widget reports, the
bookkeeping records them in `plot_bounds_x` / `last_bounds_x` only when they
differ from `last_bounds_x`. -/
noncomputable def renderFrame (s : AppState) (reported : ℝ × ℝ) :
    AppState × Option (ℝ × ℝ) :=
  let applied := s.force_bounds_x
  let s1 : AppState := { s with force_bounds_x := none }
  if s1.last_bounds_x ≠ some reported then
    ({ s1 with plot_bounds_x := some reported, last_bounds_x := some reported },
     applied)
  else (s1, applied)

/-- The Log10 → Linear → Log10 double toggle with a band selection and a
consuming render pass between the toggles, each toggle followed by the next
frame's `scaleSync`. -/
noncomputable def doubleToggleScenario (s : AppState) (i : Nat) : AppState :=
  scaleSync (toggleScale (consumeForced (selectBand
    (consumeForced (scaleSync (toggleScale s))) i)))

/-! ## Producer/consumer wiring (main.rs and `MyApp::new` / `update`, app.rs)

`main` creates an `Arc<SegQueue<String>>` and spawns a thread that pushes
every stdin line onto it; that queue is never handed to `MyApp` — `MyApp::new`
creates its own `mpsc::channel::<usize>()` pair whose sender goes to the
2-second demo ticker thread and whose receiver is the one `update` drains
with `try_recv` each frame. -/

/-- The channels of the running program plus the app state: `msg_queue` is the
`SegQueue<String>` of `main.rs` (stdin producer pushes at the back),
`step_chan` the `mpsc` channel of `MyApp::new` (ticker sends at the back, the
app receives from the front). -/
structure SystemState where
  msg_queue : List String
  step_chan : List Nat
  app : AppState

/-- The stdin thread of `main.rs` enqueuing one received line
(`queue.push(l)`). -/
def stdinPush (sys : SystemState) (line : String) : SystemState :=
  { sys with msg_queue := sys.msg_queue ++ [line] }

/-- The demo ticker thread of `MyApp::new` sending one step token
(`tx.send(step)`). -/
def tickerSend (sys : SystemState) (st : Nat) : SystemState :=
  { sys with step_chan := sys.step_chan ++ [st] }

/-- The ingestion head of one `update` pass (app.rs): `try_recv` on the step
channel; when a token is pending, record it in `self.step` and apply
`update_tasks`; when the channel is empty, proceed unchanged. -/
def frameIngest (sys : SystemState) : SystemState :=
  match sys.step_chan with
  | [] => sys
  | st :: rest =>
      { sys with step_chan := rest,
                 app := { sys.app with step := st,
                                       tasks := update_tasks st sys.app.tasks } }

/-- `n` consecutive frames' ingestion heads. -/
def iterFrames : Nat → SystemState → SystemState
  | 0, sys => sys
  | n + 1, sys => iterFrames n (frameIngest sys)

/-! ## Sample states used by witnesses -/

/-- A viewport state in linear mode with no pending transition. -/
def stateLin : AppState := ⟨[], none, none, 0, false, false, none, none⟩

/-- A viewport state in log mode, already synced, with a band selected. -/
def stateLog : AppState := ⟨[], none, none, 0, true, true, some 2, none⟩

/-- A viewport state with forced bounds pending and observed bounds known. -/
def stateForced : AppState :=
  ⟨[], some (20, 6000), some (20, 6000), 0, false, false, none, some (20, 6000)⟩

/-! # Theorems -/

/-! ## Helper lemmas on the edge-toggle condition -/

/-- An edge whose endpoints are on the same side of the ray never toggles. -/
theorem not_edgeFlips_levels (x y x1 y1 x2 y2 : ℝ) (h : (y1 > y) ↔ (y2 > y)) :
    ¬ edgeFlips x y x1 y1 x2 y2 :=
  fun hc => hc.1 h

/-- A vertical edge at abscissa `c` crossing the ray toggles exactly when
`x < c`: the `(xj - xi)` factor vanishes, so the epsilon-augmented division
contributes nothing. -/
theorem edgeFlips_vert (c y1 y2 x y : ℝ) (h : ¬((y1 > y) ↔ (y2 > y)))
    (hx : x < c) : edgeFlips x y c y1 c y2 := by
  refine ⟨h, ?_⟩
  rw [sub_self, zero_mul, zero_div, zero_add]
  exact hx

/-- A vertical edge at abscissa `c` does not toggle when `c ≤ x`. -/
theorem not_edgeFlips_vert (c y1 y2 x y : ℝ) (hx : c ≤ x) :
    ¬ edgeFlips x y c y1 c y2 := by
  rintro ⟨-, hlt⟩
  rw [sub_self, zero_mul, zero_div, zero_add] at hlt
  exact absurd hlt (not_lt.mpr hx)

/-- The iff of a ray strictly between the rectangle's two levels. -/
theorem levels_differ {y Y : ℝ} (h0 : 0 < y) (hY : y < Y) :
    ¬(((0 : ℝ) > y) ↔ (Y > y)) := by
  intro hiff
  exact absurd (hiff.mpr hY) (not_lt.mpr h0.le)

/-! ## Evaluation of `zoneContains` on the rectangles the program builds -/

/-- Rectangle evaluation, point strictly between the levels, abscissa inside
`[a, b)`. -/
theorem zoneContains_rect_inside (a b Y x y : ℝ) (h0 : 0 < y) (hY : y < Y)
    (ha : a ≤ x) (hb : x < b) :
    zoneContains [(a, 0), (b, 0), (b, Y), (a, Y)] x y = some true := by
  show some (rayFold x y
    [((a, 0), (a, Y)), ((b, 0), (a, 0)), ((b, Y), (b, 0)), ((a, Y), (b, Y))]
    false) = some true
  simp only [rayFold]
  rw [if_neg (not_edgeFlips_vert a 0 Y x y ha),
      if_neg (not_edgeFlips_levels x y b 0 a 0 Iff.rfl),
      if_pos (edgeFlips_vert b Y 0 x y (fun hiff => levels_differ h0 hY hiff.symm) hb),
      if_neg (not_edgeFlips_levels x y a Y b Y Iff.rfl)]
  rfl

/-- Rectangle evaluation, abscissa at or beyond the right edge (the level
hypotheses document the intended query but neither vertical edge toggles). -/
theorem zoneContains_rect_right (a b Y x y : ℝ) (_h0 : 0 < y) (_hY : y < Y)
    (ha : a ≤ x) (hb : b ≤ x) :
    zoneContains [(a, 0), (b, 0), (b, Y), (a, Y)] x y = some false := by
  show some (rayFold x y
    [((a, 0), (a, Y)), ((b, 0), (a, 0)), ((b, Y), (b, 0)), ((a, Y), (b, Y))]
    false) = some false
  simp only [rayFold]
  rw [if_neg (not_edgeFlips_vert a 0 Y x y ha),
      if_neg (not_edgeFlips_levels x y b 0 a 0 Iff.rfl),
      if_neg (not_edgeFlips_vert b Y 0 x y hb),
      if_neg (not_edgeFlips_levels x y a Y b Y Iff.rfl)]

/-- Rectangle evaluation, abscissa left of both vertical edges: both edges
toggle, membership cancels. -/
theorem zoneContains_rect_left (a b Y x y : ℝ) (h0 : 0 < y) (hY : y < Y)
    (ha : x < a) (hb : x < b) :
    zoneContains [(a, 0), (b, 0), (b, Y), (a, Y)] x y = some false := by
  show some (rayFold x y
    [((a, 0), (a, Y)), ((b, 0), (a, 0)), ((b, Y), (b, 0)), ((a, Y), (b, Y))]
    false) = some false
  simp only [rayFold]
  rw [if_pos (edgeFlips_vert a 0 Y x y (levels_differ h0 hY) ha),
      if_neg (not_edgeFlips_levels x y b 0 a 0 Iff.rfl),
      if_pos (edgeFlips_vert b Y 0 x y (fun hiff => levels_differ h0 hY hiff.symm) hb),
      if_neg (not_edgeFlips_levels x y a Y b Y Iff.rfl)]
  rfl

/-- Rectangle evaluation, point above the rectangle: no edge crosses the
ray's level, so no toggle happens. -/
theorem zoneContains_rect_above (a b Y x y : ℝ) (h0 : 0 < y) (hY : Y < y) :
    zoneContains [(a, 0), (b, 0), (b, Y), (a, Y)] x y = some false := by
  have hiffa : ((0 : ℝ) > y) ↔ (Y > y) :=
    iff_of_false (not_lt.mpr h0.le) (not_lt.mpr hY.le)
  show some (rayFold x y
    [((a, 0), (a, Y)), ((b, 0), (a, 0)), ((b, Y), (b, 0)), ((a, Y), (b, Y))]
    false) = some false
  simp only [rayFold]
  rw [if_neg (not_edgeFlips_levels x y a 0 a Y hiffa),
      if_neg (not_edgeFlips_levels x y b 0 a 0 Iff.rfl),
      if_neg (not_edgeFlips_levels x y b Y b 0 hiffa.symm),
      if_neg (not_edgeFlips_levels x y a Y b Y Iff.rfl)]

/-! ## Shared numeric helpers -/

/-- Every frequency the program handles has a log10 far below 1000. -/
theorem logb_le_thousand (c : ℝ) (h0 : 0 < c) (hc : c ≤ 6000) :
    Real.logb 10 c ≤ 1000 := by
  have h4 : Real.logb 10 c < 4 := by
    rw [Real.logb_lt_iff_lt_rpow (by norm_num) h0]
    calc c ≤ 6000 := hc
    _ < 10 ^ (4 : ℝ) := by
        rw [show ((4 : ℝ)) = ((4 : ℕ) : ℝ) by norm_num, Real.rpow_natCast]
        norm_num
  linarith

/-- `fromPlotX` in log mode sends plot-space `3` to the frequency `1000`. -/
theorem fromPlotX_three : fromPlotX true 3 = 1000 := by
  simp only [fromPlotX, if_true]
  rw [show ((3 : ℝ)) = ((3 : ℕ) : ℝ) by norm_num, Real.rpow_natCast]
  norm_num

/-! ## C4 — the ingestion recipe -/

/-- C4: step 0 appends exactly the single task "Init capteurs" with
frequency 100–300 and time 0–300 to any task list; step 2 removes exactly
the last task (and nothing else) when the list is non-empty; step 4 clears
the list regardless of length, and on an empty list leaves it empty. -/
theorem update_tasks_recipe (ts : List Task) (t : Task) :
    update_tasks 0 ts = ts ++ [initTask] ∧
    initTask.name = "Init capteurs" ∧
    initTask.freq_start = 100 ∧ initTask.freq_end = 300 ∧
    initTask.time_start = 0 ∧ initTask.time_end = 300 ∧
    update_tasks 2 (ts ++ [t]) = ts ∧
    update_tasks 2 ts = ts.dropLast ∧
    update_tasks 4 ts = [] ∧
    update_tasks 4 ([] : List Task) = [] :=
  ⟨rfl, rfl, rfl, rfl, rfl, rfl, List.dropLast_concat, rfl, rfl, rfl⟩

/-! ## C9 — totality of the recipe mutation -/

/-- C9: the recipe mutation is total: the remove step on an empty list
leaves it empty without error (the discarded `pop` returns `None`), and any
step index outside 0..4 leaves the task list unchanged. -/
theorem update_tasks_total (step : Nat) (ts : List Task) (h : 5 ≤ step) :
    update_tasks 2 ([] : List Task) = [] ∧ update_tasks step ts = ts := by
  refine ⟨rfl, ?_⟩
  obtain ⟨k, rfl⟩ : ∃ k, step = k + 5 := ⟨step - 5, by omega⟩
  rfl

/-- Witness for C9 at step 7 on a one-task list. -/
theorem update_tasks_total_witness :
    update_tasks 2 ([] : List Task) = [] ∧
    update_tasks 7 [initTask] = [initTask] :=
  update_tasks_total 7 [initTask] (by norm_num)

/-! ## C7 — the scale transform round-trips -/

/-- C7: for every frequency in `[20, 6000]`, the log-mode transform
round-trips exactly over the reals (`10 ^ (log10 f) = f`, the embedding of
the floating-point identity within tolerance), and the linear-mode transform
is the identity. -/
theorem transform_roundtrip (f : ℝ) (h1 : 20 ≤ f) (_h2 : f ≤ 6000) :
    fromPlotX true (toPlotX true f) = f ∧ toPlotX false f = f := by
  constructor
  · have hf : (0 : ℝ) < f := lt_of_lt_of_le (by norm_num) h1
    simp only [fromPlotX, toPlotX, if_true]
    exact Real.rpow_logb (by norm_num) (by norm_num) hf
  · simp [toPlotX]

/-- Witness for C7 at `f = 100`. -/
theorem transform_roundtrip_witness :
    fromPlotX true (toPlotX true 100) = 100 ∧ toPlotX false 100 = 100 :=
  transform_roundtrip 100 (by norm_num) (by norm_num)

/-! ## C8 — the receiver-zone rectangle hit tests -/

/-- C8: the receiver zone is the fixed rectangle
`[(20,0),(6000,0),(6000,100),(20,100)]` (the head of the zone list), and the
epsilon-in-denominator ray-cast returns true at `(3000, 50)`, false at
`(3000, 150)` and false at `(10, 50)`. -/
theorem rx_zone_hit_tests :
    get_background_zones.head? = some rxZone ∧
    rxZone.area = [(20, 0), (6000, 0), (6000, 100), (20, 100)] ∧
    zoneContains rxZone.area 3000 50 = some true ∧
    zoneContains rxZone.area 3000 150 = some false ∧
    zoneContains rxZone.area 10 50 = some false := by
  refine ⟨rfl, ?_, ?_, ?_, ?_⟩
  · norm_num [rxZone, MIN_FREQ, MAX_FREQ]
  · exact zoneContains_rect_inside MIN_FREQ MAX_FREQ 100 3000 50 (by norm_num)
      (by norm_num) (by norm_num [MIN_FREQ]) (by norm_num [MAX_FREQ])
  · exact zoneContains_rect_above MIN_FREQ MAX_FREQ 100 3000 150 (by norm_num)
      (by norm_num)
  · exact zoneContains_rect_left MIN_FREQ MAX_FREQ 100 10 50 (by norm_num)
      (by norm_num) (by norm_num [MIN_FREQ]) (by norm_num [MAX_FREQ])

/-! ## C10 — totality and the empty-polygon panic -/

/-- C10: for every polygon with at least one vertex the containment test
returns a boolean (no panic: the modelled call yields `some`); for the empty
polygon the Rust `n - 1` on `usize` underflows and the call panics, modelled
as `none`. -/
theorem contains_totality (pts : List (ℝ × ℝ)) (x y : ℝ) (h : pts ≠ []) :
    (∃ b, zoneContains pts x y = some b) ∧
    zoneContains ([] : List (ℝ × ℝ)) x y = none := by
  refine ⟨?_, rfl⟩
  match pts, h with
  | p :: rest, _ => exact ⟨_, rfl⟩

/-- Witness for C10 on a one-vertex polygon. -/
theorem contains_totality_witness :
    (∃ b, zoneContains [((0 : ℝ), (0 : ℝ))] 1 2 = some b) ∧
    zoneContains ([] : List (ℝ × ℝ)) 1 2 = none :=
  contains_totality [(0, 0)] 1 2 (by simp)

/-! ## C1 — the two producers and their channels -/

/-- The ingestion head commutes with a stdin push: it reads only the step
channel and the app state, which `stdinPush` leaves untouched. -/
theorem frameIngest_stdinPush (sys : SystemState) (line : String) :
    frameIngest (stdinPush sys line) = stdinPush (frameIngest sys) line := by
  obtain ⟨mq, sc, app⟩ := sys
  cases sc <;> rfl

/-- Iterated frames commute with a stdin push. -/
theorem iterFrames_stdinPush (n : Nat) (sys : SystemState) (line : String) :
    iterFrames n (stdinPush sys line) = stdinPush (iterFrames n sys) line := by
  induction n generalizing sys with
  | zero => rfl
  | succ n ih => rw [iterFrames, frameIngest_stdinPush, ih, iterFrames]

/-- The ingestion head never touches the stdin queue. -/
theorem frameIngest_msg_queue (sys : SystemState) :
    (frameIngest sys).msg_queue = sys.msg_queue := by
  obtain ⟨mq, sc, app⟩ := sys
  cases sc <;> rfl

/-- Iterated frames never touch the stdin queue. -/
theorem iterFrames_msg_queue (n : Nat) (sys : SystemState) :
    (iterFrames n sys).msg_queue = sys.msg_queue := by
  induction n generalizing sys with
  | zero => rfl
  | succ n ih => rw [iterFrames, ih, frameIngest_msg_queue]

/-- C1 evaluated on the code: the two producers write to *different*
channels — the stdin reader to `main`'s `SegQueue`, the ticker to the app's
`mpsc` channel — and the per-frame `try_recv` drains only the latter, so a
line pushed by the stdin reader changes the app state of no later frame: the
app after any `n` frames is identical with or without the pushed line, which
merely accumulates forever in the unread queue. -/
theorem stdin_lines_never_reach_consumer (sys : SystemState) (line : String)
    (st : Nat) (n : Nat) :
    (stdinPush sys line).step_chan = sys.step_chan ∧
    (tickerSend sys st).msg_queue = sys.msg_queue ∧
    (iterFrames n (stdinPush sys line)).app = (iterFrames n sys).app ∧
    (iterFrames n (stdinPush sys line)).msg_queue = sys.msg_queue ++ [line] := by
  refine ⟨rfl, rfl, ?_, ?_⟩
  · rw [iterFrames_stdinPush]; rfl
  · rw [iterFrames_stdinPush]
    show (iterFrames n sys).msg_queue ++ [line] = sys.msg_queue ++ [line]
    rw [iterFrames_msg_queue]

/-! ## C5 — scale-mode toggle transitions -/

/-- C5: flipping the scale checkbox makes the next frame's sync clear the
zoom band, force the full-range bounds of the new mode and record it as last
applied; a synced state is a fixed point of the sync (the transition fires
once per toggle, not on later frames); and the Log10 → Linear → Log10 double
toggle — with a band selected and the forced bounds consumed in between —
ends with `force_bounds_x = get_bounds true` and no zoom band. -/
theorem scale_toggle_transition (s t u : AppState) (i : Nat)
    (hs : s.log_scale = s.old_log_scale)
    (ht : t.log_scale = t.old_log_scale)
    (hu1 : u.log_scale = true) (hu2 : u.old_log_scale = true) :
    ((scaleSync (toggleScale s)).zoom_band = none ∧
     (scaleSync (toggleScale s)).force_bounds_x = some (get_bounds (!s.log_scale)) ∧
     (scaleSync (toggleScale s)).old_log_scale = !s.log_scale) ∧
    (scaleSync (consumeForced (scaleSync (toggleScale t))) =
       consumeForced (scaleSync (toggleScale t))) ∧
    ((doubleToggleScenario u i).force_bounds_x = some (get_bounds true) ∧
     (doubleToggleScenario u i).zoom_band = none) := by
  refine ⟨?_, ?_, ?_⟩
  · simp [scaleSync, toggleScale, hs]
  · simp [scaleSync, toggleScale, consumeForced, ht]
  · unfold doubleToggleScenario
    cases hb : bands[i]? with
    | none =>
        constructor <;>
          simp [scaleSync, toggleScale, consumeForced, selectBand, hu1, hu2, hb]
    | some amp =>
        obtain ⟨a, lo, hi⟩ := amp
        constructor <;>
          simp [scaleSync, toggleScale, consumeForced, selectBand, hu1, hu2, hb]

/-- Witness for C5: a synced linear state for the single-toggle and
fixed-point parts, a synced log state with band 2 selected for the double
toggle, band 1 selected in between. -/
theorem scale_toggle_transition_witness :
    ((scaleSync (toggleScale stateLin)).zoom_band = none ∧
     (scaleSync (toggleScale stateLin)).force_bounds_x =
       some (get_bounds (!stateLin.log_scale)) ∧
     (scaleSync (toggleScale stateLin)).old_log_scale = !stateLin.log_scale) ∧
    (scaleSync (consumeForced (scaleSync (toggleScale stateLin))) =
       consumeForced (scaleSync (toggleScale stateLin))) ∧
    ((doubleToggleScenario stateLog 1).force_bounds_x = some (get_bounds true) ∧
     (doubleToggleScenario stateLog 1).zoom_band = none) :=
  scale_toggle_transition stateLin stateLin stateLog 1 rfl rfl rfl rfl

/-! ## C6 — one-shot forced bounds and pan/zoom bookkeeping -/

/-- C6: every render pass clears `force_bounds_x` (it never survives the
frame) and applies exactly the pending value to the plot; when the widget
reports the same bounds as last frame the pass changes nothing but the
cleared forced bounds (the user's free pan/zoom is untouched), and when the
reported bounds differ they are recorded in both bookkeeping fields. -/
theorem render_consumes_forced (s : AppState) (nb : ℝ × ℝ) :
    (renderFrame s nb).1.force_bounds_x = none ∧
    (renderFrame s nb).2 = s.force_bounds_x ∧
    (s.last_bounds_x = some nb → (renderFrame s nb).1 = consumeForced s) ∧
    (s.last_bounds_x ≠ some nb →
      (renderFrame s nb).1.last_bounds_x = some nb ∧
      (renderFrame s nb).1.plot_bounds_x = some nb) := by
  by_cases h : s.last_bounds_x = some nb
  · refine ⟨?_, ?_, fun _ => ?_, fun hne => absurd h hne⟩ <;>
      simp [renderFrame, consumeForced, h]
  · refine ⟨?_, ?_, fun heq => absurd heq h, fun _ => ⟨?_, ?_⟩⟩ <;>
      simp [renderFrame, consumeForced, h]

/-- Witness for C6: the forced state with matching reported bounds, then
with differing reported bounds. -/
theorem render_consumes_forced_witness :
    ((renderFrame stateForced (20, 6000)).1.force_bounds_x = none ∧
     (renderFrame stateForced (20, 6000)).2 = stateForced.force_bounds_x ∧
     (renderFrame stateForced (20, 6000)).1 = consumeForced stateForced) ∧
    ((renderFrame stateForced (100, 200)).1.last_bounds_x = some (100, 200) ∧
     (renderFrame stateForced (100, 200)).1.plot_bounds_x = some (100, 200)) := by
  have h1 := render_consumes_forced stateForced (20, 6000)
  have h2 := render_consumes_forced stateForced (100, 200)
  refine ⟨⟨h1.1, h1.2.1, h1.2.2.1 rfl⟩, h2.2.2.2 ?_⟩
  intro h
  have h' : (some ((20 : ℝ), (6000 : ℝ)) : Option (ℝ × ℝ)) =
      some ((100 : ℝ), (200 : ℝ)) := h
  norm_num at h'

/-! ## C2 — the raw-coordinate fallback readout -/

/-- C2 counterexample: at `(200, 100)` in linear mode with the
"Init capteurs" task displayed, the task matches and no coordinate readout
is shown at all (refuting "shown regardless of whether a task matched"); and
at `(3, 50)` in log mode with no tasks the readout shows the raw plot-space
`(3, 50)`, while reversing through `fromPlotX` would show `1000` MHz
(refuting "reversed through fromPlotX"). -/
theorem hover_coord_counterexample :
    (resolveHover false [initTask] 200 100).coordLabel = none ∧
    (resolveHover true [] 3 50).coordLabel = some (3, 50) ∧
    fromPlotX true 3 = 1000 ∧ ((3 : ℝ) ≠ 1000) := by
  refine ⟨?_, rfl, fromPlotX_three, by norm_num⟩
  have hp : taskHit initTask (fromPlotX false 200) 100 = true := by
    unfold taskHit
    exact decide_eq_true (by norm_num [initTask, fromPlotX])
  have hfm : firstMatch [initTask] (fromPlotX false 200) 100 = some initTask := by
    unfold firstMatch
    exact List.find?_cons_of_pos _ hp
  simp [resolveHover, hfm]

/-- C2 amended: the raw `(px, py)` coordinate readout is shown exactly when
no task matched (whether or not zones matched), and it displays the raw
plot-space abscissa `px` — not its reversal through `fromPlotX` — together
with `py`. -/
theorem hover_coord_fallback (log : Bool) (tasks : List Task) (px py : ℝ) :
    (resolveHover log tasks px py).coordLabel =
      (firstMatch tasks (fromPlotX log px) py).elim (some (px, py))
        (fun _ => none) := by
  cases h : firstMatch tasks (fromPlotX log px) py <;>
    simp [resolveHover, h]

/-! ## C3 — which polygon the zone hit test uses -/

/-- C3 counterexample: in log mode at plot-space `(3, 50)` (so
`freq = 1000` MHz) with no tasks, the code shows the receiver zone (its
*domain-unit* polygon contains `(1000, 50)`), whereas the claim's formula —
containment on the polygon built in the current scale mode, queried at
`(freq, py)` — holds for no zone: `1000` is far beyond every log10-scaled
abscissa. -/
theorem zone_scale_mode_counterexample :
    (resolveHover true [] 3 50).zoneNames ≠ claimedZoneNames true 3 50 := by
  have hshown : (resolveHover true [] 3 50).zoneNames =
      (get_background_zones.filter
        (fun z => (zoneContains z.area (fromPlotX true 3) 50).getD false)).map
        zoneName := rfl
  simp only [fromPlotX_three] at hshown
  have hmem : "Zone de réception" ∈ (resolveHover true [] 3 50).zoneNames := by
    rw [hshown]
    refine List.mem_map.mpr ⟨rxZone, List.mem_filter.mpr ⟨?_, ?_⟩, rfl⟩
    · simp [get_background_zones]
    · show (zoneContains rxZone.area 1000 50).getD false = true
      rw [show rxZone.area =
            [(MIN_FREQ, 0), (MAX_FREQ, 0), (MAX_FREQ, 100), (MIN_FREQ, 100)]
            from rfl,
          zoneContains_rect_inside MIN_FREQ MAX_FREQ 100 1000 50 (by norm_num)
            (by norm_num) (by norm_num [MIN_FREQ]) (by norm_num [MAX_FREQ])]
      rfl
  have hnot : "Zone de réception" ∉ claimedZoneNames true 3 50 := by
    intro hmem2
    simp only [claimedZoneNames, fromPlotX_three] at hmem2
    obtain ⟨z, hzf, hzname⟩ := List.mem_map.mp hmem2
    obtain ⟨hzmem, hzp⟩ := List.mem_filter.mp hzf
    have hzp2 : (zoneContains (scaledArea true z.area) (1000 : ℝ) 50).getD false
        = true := hzp
    simp only [get_background_zones, List.mem_cons, List.not_mem_nil, or_false]
      at hzmem
    have hlogmin : Real.logb 10 MIN_FREQ ≤ 1000 :=
      logb_le_thousand MIN_FREQ (by norm_num [MIN_FREQ]) (by norm_num [MIN_FREQ])
    have hlogmax : Real.logb 10 MAX_FREQ ≤ 1000 :=
      logb_le_thousand MAX_FREQ (by norm_num [MAX_FREQ]) (by norm_num [MAX_FREQ])
    rcases hzmem with rfl | rfl | rfl | rfl | rfl | rfl
    · have harea : scaledArea true rxZone.area =
          [(Real.logb 10 MIN_FREQ, 0), (Real.logb 10 MAX_FREQ, 0),
           (Real.logb 10 MAX_FREQ, 100), (Real.logb 10 MIN_FREQ, 100)] := by
        simp [scaledArea, rxZone]
      rw [harea, zoneContains_rect_right _ _ _ _ _ (by norm_num) (by norm_num)
        hlogmin hlogmax] at hzp2
      simp at hzp2
    · simp [zoneName, ampZone] at hzname
    · simp [zoneName, ampZone] at hzname
    · simp [zoneName, ampZone] at hzname
    · simp [zoneName, ampZone] at hzname
    · simp [zoneName, ampZone] at hzname
  intro heq
  rw [heq] at hmem
  exact hnot hmem

/-- C3 amended: when no task matched, the zone names shown are exactly those
of the zones whose ray-cast containment, evaluated on the *stored
domain-unit* polygon (no scale-mode transform), holds at `(freq, py)` with
`freq = fromPlotX px`; overlapping zones yield several names and no match
yields none. -/
theorem zone_names_domain_polygon (log : Bool) (tasks : List Task) (px py : ℝ)
    (h : firstMatch tasks (fromPlotX log px) py = none) (name : String) :
    name ∈ (resolveHover log tasks px py).zoneNames ↔
      ∃ z ∈ get_background_zones,
        zoneContains z.area (fromPlotX log px) py = some true ∧
        zoneName z = name := by
  have hzn : (resolveHover log tasks px py).zoneNames =
      (get_background_zones.filter
        (fun z => (zoneContains z.area (fromPlotX log px) py).getD false)).map
        zoneName := by
    simp [resolveHover, h]
  rw [hzn]
  constructor
  · intro hm
    obtain ⟨z, hzf, rfl⟩ := List.mem_map.mp hm
    obtain ⟨hzmem, hzp⟩ := List.mem_filter.mp hzf
    have hzp2 : (zoneContains z.area (fromPlotX log px) py).getD false = true :=
      hzp
    refine ⟨z, hzmem, ?_, rfl⟩
    cases hzc : zoneContains z.area (fromPlotX log px) py with
    | none => rw [hzc] at hzp2; simp at hzp2
    | some b =>
        rw [hzc] at hzp2
        cases b with
        | false => simp at hzp2
        | true => rfl
  · rintro ⟨z, hzmem, hzc, rfl⟩
    refine List.mem_map.mpr ⟨z, List.mem_filter.mpr ⟨hzmem, ?_⟩, rfl⟩
    show (zoneContains z.area (fromPlotX log px) py).getD false = true
    rw [hzc]
    rfl

/-- Witness for C3 (amended) in linear mode at `(3000, 50)` with no tasks:
the receiver zone's name is shown. -/
theorem zone_names_domain_polygon_witness :
    "Zone de réception" ∈ (resolveHover false [] 3000 50).zoneNames := by
  refine (zone_names_domain_polygon false [] 3000 50 rfl "Zone de réception").mpr
    ⟨rxZone, by simp [get_background_zones], ?_, rfl⟩
  show zoneContains rxZone.area (3000 : ℝ) 50 = some true
  exact zoneContains_rect_inside MIN_FREQ MAX_FREQ 100 3000 50 (by norm_num)
    (by norm_num) (by norm_num [MIN_FREQ]) (by norm_num [MAX_FREQ])

end Gantt
